import Mathlib

/-!
Verification of the memory orchestration logic of the
openclaw-redis-agent-memory plugin.

The definitions below are a shallow embedding of the TypeScript source:
`src/index.ts` (the plugin: message normalizer, envelope stripping,
memory_recall / memory_store / memory_forget tools, lifecycle hooks) and
`src/config.ts` (configuration parsing).  Dynamic JavaScript values that the
normalizer inspects are modelled by a JSON-like inductive type; machine
floating-point distances are modelled by rationals (all comparisons in the
source involve small decimal constants for which the orderings agree);
wall-clock instants are modelled by integer milliseconds (an ISO rendering of
an instant is injective, so `created_at` is tracked as the instant itself);
the remote vector-search backend is an external collaborator, so every tool
is embedded as a pure function of the backend's response.
-/

/-- JSON-like dynamic value, modelling the `unknown` payloads the plugin
inspects.  Object fields are an association list; the inputs considered
always have pairwise-distinct keys, so first-match lookup coincides with
JavaScript property access. -/
inductive JVal where
  | jnull
  | jbool (b : Bool)
  | jnum (n : Int)
  | jstr (s : String)
  | jarr (items : List JVal)
  | jobj (fields : List (String × JVal))

/-- First-match association-list lookup, modelling JavaScript property
access `o[k]` on a plain object (`none` plays the role of `undefined`). -/
def lookupField : List (String × JVal) → String → Option JVal
  | [], _ => none
  | (k', v) :: rest, k => if k' = k then some v else lookupField rest k

/-- Property access on a dynamic value: only plain objects have named
fields; on every other value (including arrays, whose keys are numeric)
the result is `undefined`. -/
def JVal.getField : JVal → String → Option JVal
  | .jobj fs, k => lookupField fs k
  | _, _ => none

/-- The guard `v && typeof v === "object"`: truthy values of type
"object", i.e. plain objects and arrays (`null` is of type "object" but
falsy). -/
def JVal.isTruthyObject : JVal → Bool
  | .jobj _ => true
  | .jarr _ => true
  | _ => false

/-- ASCII whitespace recognised by JavaScript's `\s` and `trim()`
(the inputs considered contain no exotic Unicode whitespace). -/
def isJsWS (c : Char) : Bool :=
  c == ' ' || c == '\t' || c == '\n' || c == '\r' || c == '\x0b' || c == '\x0c'

/-- `String.prototype.trim()` on a character list. -/
def jsTrim (l : List Char) : List Char :=
  ((l.dropWhile isJsWS).reverse.dropWhile isJsWS).reverse

/-- `String.prototype.trim()`. -/
def jsTrimStr (s : String) : String := String.mk (jsTrim s.data)

/-- `pat` is a leading run of `l`. -/
def hasPre : List Char → List Char → Bool
  | [], _ => true
  | _ :: _, [] => false
  | p :: ps, c :: cs => p == c && hasPre ps cs

/-- `pat` occurs somewhere in `l` (JavaScript `String.prototype.includes`). -/
def hasSub (pat : List Char) : List Char → Bool
  | [] => hasPre pat []
  | c :: rest => hasPre pat (c :: rest) || hasSub pat rest

/-- `content.includes("<relevant-memories>")`: the injected-context marker
test of the normalizer (src/index.ts line 128). -/
def containsMarker (s : String) : Bool :=
  hasSub "<relevant-memories>".data s.data

/-- One content block of an array-shaped `content`: contributes its `text`
field when it is a truthy object whose `type` field is the string "text"
and whose `text` field is a string (src/index.ts lines 67-78). -/
def blockText : JVal → Option String
  | .jobj fs =>
    match lookupField fs "type", lookupField fs "text" with
    | some (.jstr "text"), some (.jstr t) => some t
    | _, _ => none
  | _ => none

/-- `extractTextContent` (src/index.ts lines 62-83): a string is used
verbatim; an array contributes the `text` of its text blocks joined by
newlines; any other shape (including a missing field) yields "". -/
def extractTextContent : Option JVal → String
  | some (.jstr s) => s
  | some (.jarr blocks) => String.intercalate "\n" (blocks.filterMap blockText)
  | _ => ""

/-- Canonical memory message (the `MemoryMessage` handed to the backend).
`created_at` holds the instant that the emitted ISO-8601 string denotes
(ISO rendering of instants is injective). -/
structure MemoryMessage where
  role : String
  content : String
  id : String
  created_at : Int
  deriving DecidableEq, Repr

/-- One iteration of the loop body of `convertToMemoryMessages`
(src/index.ts lines 114-136).  `now` is the wall-clock instant at which the
conversion runs; `uuid n` is the n-th freshly generated id and `n` counts
how many ids have been consumed so far.  Returns `none` when the turn is
dropped (`continue`). -/
def convertOne (now : Int) (uuid : Nat → String) (msg : JVal) (n : Nat) :
    Option (MemoryMessage × Nat) :=
  if !msg.isTruthyObject then none
  else
    match msg.getField "role" with
    | some (.jstr role) =>
      if role == "user" || role == "assistant" then
        let content := extractTextContent (msg.getField "content")
        if jsTrimStr content == "" then none
        else if containsMarker content then none
        else
          match msg.getField "id" with
          | some (.jstr i) => some (⟨role, content, i, now⟩, n)
          | _ => some (⟨role, content, uuid n, now⟩, n + 1)
      else none
    | _ => none

/-- The loop of `convertToMemoryMessages`, threading the count of consumed
fresh ids. -/
def convertGo (now : Int) (uuid : Nat → String) : List JVal → Nat → List MemoryMessage
  | [], _ => []
  | msg :: rest, n =>
    match convertOne now uuid msg n with
    | none => convertGo now uuid rest n
    | some (m, n') => m :: convertGo now uuid rest n'

/-- `convertToMemoryMessages` (src/index.ts lines 111-139).  Note that the
source assigns `created_at: new Date().toISOString()` unconditionally: the
emitted instant is always `now`. -/
def convertToMemoryMessages (now : Int) (uuid : Nat → String)
    (messages : List JVal) : List MemoryMessage :=
  convertGo now uuid messages 0

/-- A canonical message viewed again as a raw turn, as when the
normalizer's own output is fed back to it.  The normalizer never reads
`created_at`, so its encoding is irrelevant. -/
def toJVal (m : MemoryMessage) : JVal :=
  .jobj [("role", .jstr m.role), ("content", .jstr m.content),
         ("id", .jstr m.id), ("created_at", .jnum m.created_at)]

/-- Split on `/\r?\n/` (JavaScript `text.split(/\r?\n/)`). -/
def splitLinesJS : List Char → List (List Char)
  | [] => [[]]
  | '\r' :: '\n' :: rest => [] :: splitLinesJS rest
  | '\n' :: rest => [] :: splitLinesJS rest
  | c :: rest =>
    match splitLinesJS rest with
    | [] => [[c]]
    | l :: ls => (c :: l) :: ls

/-- Strip a literal prefix, returning the remainder on success. -/
def stripLit : List Char → List Char → Option (List Char)
  | [], l => some l
  | _ :: _, [] => none
  | p :: ps, c :: cs => if c == p then stripLit ps cs else none

/-- The test `/^\[message_id:\s*[^\]]+\]$/.test(line)` applied to a line:
after the literal "[message_id:" there must be a non-empty run of
characters other than ']' (the `\s*` may feed into it) closed by a final
']'. -/
def isMessageIdLine (l : List Char) : Bool :=
  match stripLit "[message_id:".data l with
  | none => false
  | some rest =>
    let x := rest.takeWhile (· != ']')
    let tail := rest.dropWhile (· != ']')
    !x.isEmpty && tail == [']']

/-- JavaScript `header.split(/\s+/)`: pieces between maximal whitespace
runs, including an empty leading (resp. trailing) piece when the string
starts (resp. ends) with whitespace.  `skipping` records whether the scan
is inside a whitespace run; `acc` is the reversed current piece. -/
def splitWSgo : Bool → List Char → List Char → List (List Char)
  | skipping, acc, [] => if skipping then [[]] else [acc.reverse]
  | skipping, acc, c :: rest =>
    if isJsWS c then
      if skipping then splitWSgo true [] rest
      else acc.reverse :: splitWSgo true [] rest
    else splitWSgo false (c :: acc) rest

/-- `header.split(/\s+/)`. -/
def jsSplitWS (l : List Char) : List (List Char) := splitWSgo false [] l

/-- `lines.join("\n")`. -/
def joinNL : List (List Char) → List Char
  | [] => []
  | [l] => l
  | l :: ls => l ++ '\n' :: joinNL ls

/-- `stripEnvelopeForSearch` (src/index.ts lines 89-106): drop standalone
`[message_id: ...]` lines, then, if the remainder starts with a bracketed
run containing at least two whitespace-separated parts, drop that header
together with the whitespace following it (`/^\[([^\]]+)\]\s*/`), and trim
the result. -/
def stripEnvelopeForSearch (s : String) : String :=
  let lines := splitLinesJS s.data
  let filtered := lines.filter (fun l => !isMessageIdLine (jsTrim l))
  let result := joinNL filtered
  let result2 :=
    match result with
    | '[' :: rest =>
      let header := rest.takeWhile (· != ']')
      let tail := rest.dropWhile (· != ']')
      match tail with
      | ']' :: after =>
        if !header.isEmpty && 2 ≤ (jsSplitWS header).length then
          after.dropWhile isJsWS
        else result
      | _ => result
    | _ => result
  String.mk (jsTrim result2)

/-- `Math.max(0, 1 - (m.dist ?? 0))`: the similarity score derived from a
backend distance, a missing distance defaulting to 0 (src/index.ts
lines 214, 385, 558). -/
def scoreOfDist (d : Option ℚ) : ℚ := max 0 (1 - d.getD 0)

/-- One memory entry of a backend search response
(`results.memories[i]`). -/
structure MemoryRecord where
  id : String
  text : String
  dist : Option ℚ
  topics : Option (List String)
  entities : Option (List String)
  deriving DecidableEq, Repr

/-- The `MemorySearchResult` mapped from a backend entry by the
memory_recall tool. -/
structure MemorySearchResult where
  id : String
  text : String
  score : ℚ
  topics : Option (List String)
  entities : Option (List String)
  deriving DecidableEq, Repr

/-- Outcome of the memory_recall tool, as reflected in its `details`. -/
inductive RecallOutcome where
  | noMemories
  | found (memories : List MemorySearchResult)
  deriving DecidableEq, Repr

/-- The `mapped` list of memory_recall (src/index.ts lines 211-217). -/
def recallMapped (results : List MemoryRecord) : List MemorySearchResult :=
  results.map (fun m => ⟨m.id, m.text, scoreOfDist m.dist, m.topics, m.entities⟩)

/-- The `filtered` list of memory_recall (src/index.ts line 220):
`mapped.filter((r) => r.score >= cfg.minScore)`. -/
def recallFiltered (minScore : ℚ) (results : List MemoryRecord) : List MemorySearchResult :=
  (recallMapped results).filter (fun r => decide (minScore ≤ r.score))

/-- The memory_recall tool body (src/index.ts lines 192-246) as a function
of the backend search response. -/
def recallExecute (minScore : ℚ) (results : List MemoryRecord) : RecallOutcome :=
  if results.isEmpty then .noMemories
  else if (recallFiltered minScore results).isEmpty then .noMemories
  else .found (recallFiltered minScore results)

/-- An id/text/score triple, as built by the before_agent_start hook and by
memory_forget's query path. -/
structure ScoredMem where
  id : String
  text : String
  score : ℚ
  deriving DecidableEq, Repr

/-- The query-specific filter of the before_agent_start hook (src/index.ts
lines 554-560): map to scores, keep `score >= (cfg.minScore ?? 0.3)`. -/
def hookFiltered (minScore : Option ℚ) (results : List MemoryRecord) : List ScoredMem :=
  (results.map (fun m => (⟨m.id, m.text, scoreOfDist m.dist⟩ : ScoredMem))).filter
    (fun r => decide (minScore.getD (3/10) ≤ r.score))

/-- The clamp applied to a configured numeric `minScore` by
`parseMemoryConfig` (src/config.ts lines 184-187):
`Math.max(0, Math.min(1, cfg.minScore))`. -/
def clampMinScore (x : ℚ) : ℚ := max 0 (min 1 x)

/-- The entry handed to `createLongTermMemory` by memory_store
(src/index.ts lines 305-315).  `ns` is the configured namespace filter. -/
structure LongTermEntry where
  id : String
  text : String
  topics : List String
  ns : Option String
  deriving DecidableEq, Repr

/-- Outcome of the memory_store tool, as reflected in its `details`:
a structured rejection, a duplicate report (no write), or exactly one
created entry. -/
inductive StoreOutcome where
  | rejectedEmpty
  | duplicate (existingId : String) (existingText : String)
  | created (id : String) (entry : LongTermEntry)
  deriving DecidableEq, Repr

/-- `existing.memories[0].dist < 0.05` on a possibly-missing distance:
in JavaScript `undefined < 0.05` is false, so a hit with no distance is
never a duplicate. -/
def distBelowBool (d : Option ℚ) (t : ℚ) : Bool :=
  match d with
  | some x => decide (x < t)
  | none => false

/-- The memory_store tool body (src/index.ts lines 260-328) as a function
of the 1-result duplicate search response.  `uuid` is the fresh
`randomUUID()`. -/
def storeExecute (uuid : String) (ns : Option String) (text : String)
    (category : Option String) (searchResults : List MemoryRecord) : StoreOutcome :=
  let cat := category.getD "other"
  if jsTrimStr text == "" then .rejectedEmpty
  else
    match searchResults with
    | top :: _ =>
      if distBelowBool top.dist (1/20) then .duplicate top.id top.text
      else .created uuid ⟨uuid, text, [cat], ns⟩
    | [] => .created uuid ⟨uuid, text, [cat], ns⟩

/-- Outcome of the memory_forget tool, as reflected in its `details`.
`candidates` carries the rendered list (8-character id prefix,
60-character text prefix) together with the structured candidates. -/
inductive ForgetAction where
  | deleted (id : String)
  | candidates (display : List (String × String)) (cands : List ScoredMem)
  | noMatches
  | missingParam
  deriving DecidableEq, Repr

/-- Result of one memory_forget invocation together with the side effects
it requested from the backend: which entries it deleted and which search
queries it issued. -/
structure ForgetResult where
  action : ForgetAction
  deletedIds : List String
  searchedQueries : List String
  deriving DecidableEq, Repr

/-- `String.prototype.slice(0, n)` (clamping at the end of the string). -/
def strTake (s : String) (n : Nat) : String := String.mk (s.data.take n)

/-- The `scored` list of memory_forget's query path (src/index.ts
lines 383-386). -/
def forgetScored (results : List MemoryRecord) : List ScoredMem :=
  results.map (fun m => ⟨m.id, m.text, scoreOfDist m.dist⟩)

/-- The ambiguous outcome of memory_forget's query path (src/index.ts
lines 409-427): candidate list, no deletion. -/
def forgetCandidates (scored : List ScoredMem) (q : String) : ForgetResult :=
  ⟨.candidates (scored.map (fun r => (strTake r.id 8, strTake r.text 60))) scored,
   [], [q]⟩

/-- memory_forget's query path (src/index.ts lines 367-428) as a function
of the backend search response: top-5 search, auto-delete only a single
match scoring strictly above 0.9, otherwise report candidates. -/
def forgetByQuery (search : String → List MemoryRecord) (q : String) : ForgetResult :=
  let results := search q
  if results.isEmpty then ⟨.noMatches, [], [q]⟩
  else
    let scored := forgetScored results
    match scored with
    | [single] =>
      if 9/10 < single.score then ⟨.deleted single.id, [single.id], [q]⟩
      else forgetCandidates scored q
    | _ => forgetCandidates scored q

/-- memory_forget after the id branch declined: `if (query)` — an absent
or empty query falls through to the structured missing-parameter outcome
(src/index.ts lines 430-433). -/
def forgetNoId (search : String → List MemoryRecord) (query : Option String) : ForgetResult :=
  match query with
  | some q => if q != "" then forgetByQuery search q else ⟨.missingParam, [], []⟩
  | none => ⟨.missingParam, [], []⟩

/-- The memory_forget tool body (src/index.ts lines 342-441):
`if (memoryId)` — a present, non-empty id is deleted unconditionally and
the query branch is never reached. -/
def forgetExecute (search : String → List MemoryRecord) (query : Option String)
    (memoryId : Option String) : ForgetResult :=
  match memoryId with
  | some mid => if mid != "" then ⟨.deleted mid, [mid], []⟩ else forgetNoId search query
  | none => forgetNoId search query

/-- The slice of the parsed configuration relevant to capture session
identity (src/config.ts lines 31-36, 176-177). -/
structure MemoryConfigSession where
  workingMemorySessionId : Option String
  deriving DecidableEq, Repr

/-- The session identity computed by the agent_end hook for the
working-memory write (src/index.ts line 594):
`ctx?.sessionKey ?? session-` followed by `Date.now()`.  The parsed
configuration is in scope at the call site but `workingMemorySessionId`
is never consulted, which the unused parameter makes explicit. -/
def agentEndSessionId (_cfg : MemoryConfigSession) (sessionKey : Option String)
    (nowMs : Int) : String :=
  match sessionKey with
  | some k => k
  | none => "session-" ++ toString nowMs

/-- Concrete search hit with no distance field, used to exercise the
missing-distance paths. -/
def mNoDist : MemoryRecord := ⟨"m1", "remembered fact", none, none, none⟩

/-! ## General lemmas about the embedded operations -/

theorem scoreOfDist_some (d : ℚ) : scoreOfDist (some d) = max 0 (1 - d) := rfl

theorem scoreOfDist_none : scoreOfDist none = 1 := by
  show max 0 (1 - (0:ℚ)) = 1
  norm_num

/-- Over the rationals, a derived score strictly above 0.95 is exactly a
distance strictly below 0.05 — the condition `dist < 0.05` that the
memory_store duplicate check tests. -/
theorem scoreOfDist_gt_iff (d : ℚ) : 19/20 < scoreOfDist (some d) ↔ d < 1/20 := by
  rw [scoreOfDist_some, lt_max_iff]
  constructor
  · rintro (h | h) <;> linarith
  · intro h; right; linarith

/-- Every turn the normalizer's loop body accepts satisfies the role,
non-blank-content and no-marker filters, and carries the capture instant
as its `created_at`. -/
theorem convertOne_some_props {now : Int} {uuid : Nat → String} {msg : JVal} {n : Nat}
    {m : MemoryMessage} {n' : Nat} (h : convertOne now uuid msg n = some (m, n')) :
    (m.role = "user" ∨ m.role = "assistant") ∧ jsTrimStr m.content ≠ "" ∧
    containsMarker m.content = false ∧ m.created_at = now := by
  unfold convertOne at h
  repeat' split at h
  all_goals simp_all
  all_goals obtain ⟨h1, h2, h3, h4⟩ := h
  all_goals subst h3
  all_goals simp_all

/-- The loop invariant of `convertToMemoryMessages`: every emitted message
satisfies the filters and carries the capture instant. -/
theorem convertGo_mem_props {now : Int} {uuid : Nat → String} :
    ∀ (msgs : List JVal) (n : Nat) (m : MemoryMessage),
      m ∈ convertGo now uuid msgs n →
      (m.role = "user" ∨ m.role = "assistant") ∧ jsTrimStr m.content ≠ "" ∧
      containsMarker m.content = false ∧ m.created_at = now := by
  intro msgs
  induction msgs with
  | nil => intro n m hm; simp [convertGo] at hm
  | cons msg rest ih =>
    intro n m hm
    unfold convertGo at hm
    rcases hone : convertOne now uuid msg n with _ | ⟨m', k⟩
    · rw [hone] at hm
      exact ih n m hm
    · rw [hone] at hm
      rcases List.mem_cons.mp hm with rfl | hmem
      · exact convertOne_some_props hone
      · exact ih k m hmem

theorem convertGo_cons (now : Int) (uuid : Nat → String) (msg : JVal)
    (rest : List JVal) (n : Nat) :
    convertGo now uuid (msg :: rest) n =
      match convertOne now uuid msg n with
      | none => convertGo now uuid rest n
      | some (m, n') => m :: convertGo now uuid rest n' := rfl

/-- A canonical message that passed the filters is accepted unchanged when
fed back to the normalizer's loop body (its id is present, so no fresh id
is consumed). -/
theorem toJVal_convertOne {now : Int} {uuid : Nat → String} {k : Nat} {m : MemoryMessage}
    (hrole : m.role = "user" ∨ m.role = "assistant") (htrim : jsTrimStr m.content ≠ "")
    (hmark : containsMarker m.content = false) :
    convertOne now uuid (toJVal m) k = some (⟨m.role, m.content, m.id, now⟩, k) := by
  unfold convertOne toJVal
  simp [JVal.isTruthyObject, JVal.getField, lookupField, extractTextContent, hrole, htrim, hmark]

theorem normalizer_idempotent_go (now : Int) (u1 u2 : Nat → String) :
    ∀ (msgs : List JVal) (n k : Nat),
      convertGo now u2 ((convertGo now u1 msgs n).map toJVal) k = convertGo now u1 msgs n := by
  intro msgs
  induction msgs with
  | nil => intro n k; simp [convertGo]
  | cons msg rest ih =>
    intro n k
    rcases hone : convertOne now u1 msg n with _ | ⟨m, n'⟩
    · simp only [convertGo_cons, hone]
      exact ih n k
    · have hp := convertOne_some_props hone
      simp only [convertGo_cons, hone, List.map_cons,
        toJVal_convertOne hp.1 hp.2.1 hp.2.2.1]
      have hca : m.created_at = now := hp.2.2.2
      obtain ⟨r, c, i, ca⟩ := m
      simp only at hca
      subst hca
      exact congrArg _ (ih n' k)

/-- With a non-empty query and no id, memory_forget takes the query
branch. -/
theorem forgetExecute_query (search : String → List MemoryRecord) (q : String) (hq : q ≠ "") :
    forgetExecute search (some q) none = forgetByQuery search q := by
  simp [forgetExecute, forgetNoId, hq]

theorem forgetByQuery_empty (search : String → List MemoryRecord) (q : String)
    (h : search q = []) : forgetByQuery search q = ⟨.noMatches, [], [q]⟩ := by
  simp [forgetByQuery, h]

theorem forgetByQuery_single_high (search : String → List MemoryRecord) (q : String)
    (m : MemoryRecord) (h : search q = [m]) (hs : 9/10 < scoreOfDist m.dist) :
    forgetByQuery search q = ⟨.deleted m.id, [m.id], [q]⟩ := by
  simp [forgetByQuery, h, forgetScored, hs]

theorem forgetByQuery_single_low (search : String → List MemoryRecord) (q : String)
    (m : MemoryRecord) (h : search q = [m]) (hs : ¬ 9/10 < scoreOfDist m.dist) :
    forgetByQuery search q = forgetCandidates (forgetScored (search q)) q := by
  simp [forgetByQuery, h, forgetScored, hs]

theorem forgetByQuery_multi (search : String → List MemoryRecord) (q : String)
    (m1 m2 : MemoryRecord) (rest : List MemoryRecord) (h : search q = m1 :: m2 :: rest) :
    forgetByQuery search q = forgetCandidates (forgetScored (search q)) q := by
  simp [forgetByQuery, h, forgetScored]

/-- With non-empty text, memory_store inspects the top search hit: a
distance strictly below 0.05 reports a duplicate, anything else creates
the new entry. -/
theorem storeExecute_cons (uuid : String) (ns : Option String) (text : String)
    (cat : Option String) (top : MemoryRecord) (rest : List MemoryRecord)
    (h : jsTrimStr text ≠ "") :
    storeExecute uuid ns text cat (top :: rest) =
      if distBelowBool top.dist (1/20) then .duplicate top.id top.text
      else .created uuid ⟨uuid, text, [cat.getD "other"], ns⟩ := by
  simp [storeExecute, h]

theorem storeExecute_nil (uuid : String) (ns : Option String) (text : String)
    (cat : Option String) (h : jsTrimStr text ≠ "") :
    storeExecute uuid ns text cat [] = .created uuid ⟨uuid, text, [cat.getD "other"], ns⟩ := by
  simp [storeExecute, h]

/-! ## Claim C1 -/

/-- Claim C1 (refuted by the code; the repository's own test suite expects the
claimed behaviour): `created_at` is claimed to be the source turn's timestamp
converted to an ISO instant whenever the turn carries a parseable timestamp.
The source assigns `new Date().toISOString()` unconditionally: converting, at
wall-clock instant 0, a turn carrying timestamp 1706900000000 emits
`created_at` 0 — the capture time, not the turn's timestamp. -/
theorem created_at_uses_capture_time_not_source_timestamp :
    convertToMemoryMessages 0 (fun _ => "g0")
        [.jobj [("role", .jstr "user"), ("content", .jstr "Hello"),
                ("timestamp", .jnum 1706900000000), ("id", .jstr "msg-1")]]
      = [⟨"user", "Hello", "msg-1", 0⟩] ∧ (1706900000000 : Int) ≠ 0 := by
  decide

/-! ## Claim C2 -/

/-- Claim C2 (refuted by the code; `config.ts` documents the claimed
behaviour): the working-memory session identity is claimed to be the
configured `workingMemorySessionId` override whenever it is set.  The
agent_end hook computes the session id from the hook session key and the
wall clock alone — the result is independent of the configuration — so with
the override set to "fixed-session" and hook session key "hook-key" the
write is keyed by "hook-key". -/
theorem session_override_never_used :
    (∀ (c1 c2 : MemoryConfigSession) (sk : Option String) (t : Int),
        agentEndSessionId c1 sk t = agentEndSessionId c2 sk t) ∧
    agentEndSessionId ⟨some "fixed-session"⟩ (some "hook-key") 0 = "hook-key" ∧
    ("hook-key" : String) ≠ "fixed-session" := by
  refine ⟨fun c1 c2 sk t => rfl, rfl, by decide⟩

/-! ## Claim C3 -/

/-- Claim C3 counterexample: the claimed duplicate condition "score ≥ 0.95
(equivalently, distance < 0.05)" fails on the code at the boundary and at a
missing distance.  At distance exactly 0.05 the derived score is exactly
0.95, satisfying "score ≥ 0.95", yet memory_store creates a new entry (the
source tests `dist < 0.05` strictly); and with a missing distance the
derived score (distance defaulting to 0) is 1, yet a new entry is created
(the duplicate test applies no default). -/
theorem store_duplicate_threshold_counterexample :
    scoreOfDist (some (1/20)) = 19/20 ∧
    storeExecute "fresh" none "hello" none [⟨"m1", "hello", some (1/20), none, none⟩]
      = .created "fresh" ⟨"fresh", "hello", ["other"], none⟩ ∧
    scoreOfDist none = 1 ∧
    storeExecute "fresh" none "hello" none [⟨"m2", "hello", none, none, none⟩]
      = .created "fresh" ⟨"fresh", "hello", ["other"], none⟩ := by
  have hs : ¬(jsTrimStr "hello" = "") := by decide
  refine ⟨?_, by norm_num [storeExecute, distBelowBool, hs], scoreOfDist_none,
    by simp [storeExecute, distBelowBool, hs]⟩
  rw [scoreOfDist_some]
  norm_num [max_eq_right]

/-- Claim C3 (amended): for every memory_store call with non-empty text, the
operation reports a duplicate — carrying the existing entry's id and text,
with no write — exactly when the top hit of the 1-result search carries a
distance whose derived score strictly exceeds 0.95 (equivalently, distance
< 0.05); in every other case, including no hits at all, it creates exactly
one new entry with the freshly generated id and a single category tag
defaulting to "other". -/
theorem store_duplicate_iff (uuid : String) (ns : Option String) (text : String)
    (cat : Option String) (top : MemoryRecord) (rest : List MemoryRecord)
    (h : jsTrimStr text ≠ "") :
    (storeExecute uuid ns text cat (top :: rest) = .duplicate top.id top.text
        ↔ ∃ d, top.dist = some d ∧ 19/20 < scoreOfDist (some d)) ∧
    (storeExecute uuid ns text cat (top :: rest) ≠ .duplicate top.id top.text →
        storeExecute uuid ns text cat (top :: rest)
          = .created uuid ⟨uuid, text, [cat.getD "other"], ns⟩) ∧
    storeExecute uuid ns text cat [] = .created uuid ⟨uuid, text, [cat.getD "other"], ns⟩ := by
  refine ⟨?_, ?_, storeExecute_nil uuid ns text cat h⟩
  · rw [storeExecute_cons uuid ns text cat top rest h]
    rcases hd : top.dist with _ | d
    · simp [distBelowBool]
    · simp only [distBelowBool]
      by_cases hlt : d < 1/20
      · simp [hlt, scoreOfDist_gt_iff]
      · simp [hlt, scoreOfDist_gt_iff]
  · intro hne
    rw [storeExecute_cons uuid ns text cat top rest h] at hne ⊢
    by_cases hb : distBelowBool top.dist (1/20) = true
    · rw [if_pos hb] at hne
      exact absurd rfl hne
    · rw [if_neg hb]

/-- Witness for `store_duplicate_iff` at a concrete call: non-empty text
"hi", empty search response, so a fresh entry is created. -/
theorem store_duplicate_iff_witness :
    storeExecute "u" none "hi" none [] = .created "u" ⟨"u", "hi", ["other"], none⟩ :=
  (store_duplicate_iff "u" none "hi" none ⟨"m", "t", some (1/2), none, none⟩ [] (by decide)).2.2

/-! ## Claim C4 -/

/-- Claim C4 counterexample: the derived score is not clamped to [0, 1]
from above: a backend result with distance -1 yields score 2. -/
theorem score_exceeds_one_counterexample :
    scoreOfDist (some (-1)) = 2 ∧ ¬ scoreOfDist (some (-1)) ≤ 1 := by
  have h : scoreOfDist (some (-1)) = 2 := by
    rw [scoreOfDist_some]; norm_num [max_eq_right]
  rw [h]
  norm_num

/-- Claim C4 (amended): for every backend search result the derived score
equals max(0, 1 - distance); it is always nonnegative, and it lies in
[0, 1] whenever the distance is nonnegative (the code applies no upper
clamp); in particular distance 0 yields score 1, distance 1 yields score 0
and distance 1.5 yields score 0. -/
theorem score_formula_and_range (d : ℚ) :
    scoreOfDist (some d) = max 0 (1 - d) ∧
    0 ≤ scoreOfDist (some d) ∧
    (0 ≤ d → scoreOfDist (some d) ≤ 1) ∧
    scoreOfDist (some 0) = 1 ∧ scoreOfDist (some 1) = 0 ∧ scoreOfDist (some (3/2)) = 0 := by
  refine ⟨rfl, ?_, fun hd => ?_, ?_, ?_, ?_⟩
  · rw [scoreOfDist_some]; exact le_max_left 0 _
  · rw [scoreOfDist_some]; exact max_le (by norm_num) (by linarith)
  · rw [scoreOfDist_some]; norm_num [max_eq_right]
  · rw [scoreOfDist_some]; norm_num
  · rw [scoreOfDist_some]; norm_num [max_eq_left]

/-- Witness for `score_formula_and_range` at distance 0. -/
theorem score_formula_and_range_witness : scoreOfDist (some 0) ≤ 1 :=
  (score_formula_and_range 0).2.2.1 (le_refl 0)

/-! ## Claim C5 -/

/-- Claim C5 counterexample: the emitted content is not a trimmed string —
a turn whose content is " hi " passes the non-empty-after-trimming filter
and is emitted verbatim, surrounding whitespace included. -/
theorem normalizer_content_not_trimmed_counterexample :
    convertToMemoryMessages 0 (fun _ => "g0")
        [.jobj [("role", .jstr "user"), ("content", .jstr " hi ")]]
      = [⟨"user", " hi ", "g0", 0⟩] ∧
    jsTrimStr " hi " = "hi" ∧ (" hi " : String) ≠ "hi" := by
  decide

/-- Claim C5 (amended): for every input turn list, the normalizer emits only
entries whose role is "user" or "assistant", whose content is a string that
is non-empty after trimming (the content is propagated verbatim, not
trimmed), and whose text does not contain the injected-context marker; it
is embedded as a total function — malformed turns are silently dropped
rather than raising an error. -/
theorem normalizer_output_invariants (now : Int) (uuid : Nat → String) (msgs : List JVal)
    (m : MemoryMessage) (hm : m ∈ convertToMemoryMessages now uuid msgs) :
    (m.role = "user" ∨ m.role = "assistant") ∧ jsTrimStr m.content ≠ "" ∧
    containsMarker m.content = false :=
  ⟨(convertGo_mem_props msgs 0 m hm).1, (convertGo_mem_props msgs 0 m hm).2.1,
   (convertGo_mem_props msgs 0 m hm).2.2.1⟩

/-- Witness for `normalizer_output_invariants` on a concrete one-turn
input. -/
theorem normalizer_output_invariants_witness :
    ((⟨"user", "hi", "g0", 0⟩ : MemoryMessage).role = "user" ∨
      (⟨"user", "hi", "g0", 0⟩ : MemoryMessage).role = "assistant") ∧
    jsTrimStr (⟨"user", "hi", "g0", 0⟩ : MemoryMessage).content ≠ "" ∧
    containsMarker (⟨"user", "hi", "g0", 0⟩ : MemoryMessage).content = false :=
  normalizer_output_invariants 0 (fun _ => "g0")
    [.jobj [("role", .jstr "user"), ("content", .jstr "hi")]]
    ⟨"user", "hi", "g0", 0⟩ (by decide)

/-! ## Claim C6 -/

/-- Claim C6: for every memory_forget call addressed by a (non-empty) query,
a deletion is issued if and only if the top-5 search returns exactly one
match and its derived score is strictly above 0.9; in every other
non-empty-result case the call returns the candidate list (8-character id
prefix, 60-character text prefix, structured id/text/score) and performs no
deletion; and when neither query nor memoryId is supplied the structured
missing-parameter outcome is returned. -/
theorem forget_by_query_resolution (search : String → List MemoryRecord) (q : String)
    (hq : q ≠ "") :
    ((forgetExecute search (some q) none).deletedIds ≠ [] ↔
        ∃ m, search q = [m] ∧ 9/10 < scoreOfDist m.dist) ∧
    (∀ m, search q = [m] → 9/10 < scoreOfDist m.dist →
        forgetExecute search (some q) none = ⟨.deleted m.id, [m.id], [q]⟩) ∧
    (search q ≠ [] → (¬ ∃ m, search q = [m] ∧ 9/10 < scoreOfDist m.dist) →
        forgetExecute search (some q) none
          = forgetCandidates (forgetScored (search q)) q) ∧
    (∀ scored, (forgetCandidates scored q).action
        = .candidates (scored.map (fun r => (strTake r.id 8, strTake r.text 60))) scored ∧
      (forgetCandidates scored q).deletedIds = []) ∧
    forgetExecute search none none = ⟨.missingParam, [], []⟩ := by
  rw [forgetExecute_query search q hq]
  refine ⟨?_, ?_, ?_, fun scored => ⟨rfl, rfl⟩, rfl⟩
  · constructor
    · intro hdel
      rcases hres : search q with _ | ⟨m1, rest⟩
      · rw [forgetByQuery_empty search q hres] at hdel
        simp at hdel
      · rcases rest with _ | ⟨m2, rest'⟩
        · by_cases hs : 9/10 < scoreOfDist m1.dist
          · exact ⟨m1, rfl, hs⟩
          · rw [forgetByQuery_single_low search q m1 hres hs] at hdel
            simp [forgetCandidates] at hdel
        · rw [forgetByQuery_multi search q m1 m2 rest' hres] at hdel
          simp [forgetCandidates] at hdel
    · rintro ⟨m, hres, hs⟩
      rw [forgetByQuery_single_high search q m hres hs]
      simp
  · intro m hres hs
    exact forgetByQuery_single_high search q m hres hs
  · intro hne hnot
    rcases hres : search q with _ | ⟨m1, rest⟩
    · exact absurd hres hne
    · rcases rest with _ | ⟨m2, rest'⟩
      · by_cases hs : 9/10 < scoreOfDist m1.dist
        · exact absurd ⟨m1, hres, hs⟩ hnot
        · rw [← hres]
          exact forgetByQuery_single_low search q m1 hres hs
      · rw [← hres]
        exact forgetByQuery_multi search q m1 m2 rest' hres

/-- Witness for `forget_by_query_resolution`: with no query and no id the
structured missing-parameter outcome is returned. -/
theorem forget_by_query_resolution_witness :
    forgetExecute (fun _ => ([] : List MemoryRecord)) none none = ⟨.missingParam, [], []⟩ :=
  (forget_by_query_resolution (fun _ => []) "q" (by decide)).2.2.2.2

/-! ## Claim C7 -/

/-- Claim C7: the message normalizer is idempotent — re-normalizing its own
output (the canonical message list viewed again as raw turns), with its
wall-clock input unchanged (the source normalizer takes no cutoff
parameter; the wall clock is its only input besides the turns), yields the
same message list.  The fresh-id source of the second run is arbitrary: it
is never consulted, because every canonical message carries an id. -/
theorem normalizer_idempotent (now : Int) (u1 u2 : Nat → String) (msgs : List JVal) :
    convertToMemoryMessages now u2 ((convertToMemoryMessages now u1 msgs).map toJVal)
      = convertToMemoryMessages now u1 msgs :=
  normalizer_idempotent_go now u1 u2 msgs 0 0

/-! ## Claim C8 -/

/-- Claim C8: `stripEnvelopeForSearch` removes a leading bracketed header
containing at least two whitespace-separated tokens and removes standalone
`[message_id: ...]` lines: the input "[general user 12:00] Hello" yields
search text "Hello", and the input "[message_id: abc]" followed by a
newline and "What's the weather?" yields search text "What's the
weather?". -/
theorem strip_envelope_examples :
    stripEnvelopeForSearch "[general user 12:00] Hello" = "Hello" ∧
    stripEnvelopeForSearch "[message_id: abc]\nWhat's the weather?" = "What's the weather?" := by
  constructor <;> decide

/-! ## Claim C9 -/

/-- Claim C9: when both memoryId and query are supplied (the id non-empty,
as the source's truthiness test requires), the explicit-id mode takes
precedence: the memory with that id is deleted unconditionally and no
search is ever issued for the query. -/
theorem forget_id_precedence (search : String → List MemoryRecord) (q : String)
    (mid : String) (h : mid ≠ "") :
    forgetExecute search (some q) (some mid) = ⟨.deleted mid, [mid], []⟩ := by
  simp [forgetExecute, h]

/-- Witness for `forget_id_precedence` at a concrete call. -/
theorem forget_id_precedence_witness :
    forgetExecute (fun _ => []) (some "x") (some "id-1")
      = ⟨.deleted "id-1", ["id-1"], []⟩ :=
  forget_id_precedence (fun _ => []) "x" "id-1" (by decide)

/-! ## Claim C10 -/

/-- Claim C10: a missing distance is treated inconsistently across
operations.  It defaults to 0 when scores are derived, giving score 1: such
a result passes the memory_recall filter and the pre-turn hook filter for
every minimum score that is at most 1 (and the configured minimum is
clamped to at most 1 by `parseMemoryConfig`), and in forget-by-query a
single missing-distance match scores 1 > 0.9 and is auto-deleted.  In
memory_store's duplicate check, by contrast, a top hit with a missing
distance is never treated as a duplicate and a new entry is created. -/
theorem missing_distance_inconsistency (ms : ℚ) (x : ℚ) (m : MemoryRecord)
    (results rest : List MemoryRecord) (uuid text : String) (ns : Option String)
    (cat : Option String) (q : String) :
    scoreOfDist none = 1 ∧
    clampMinScore x ≤ 1 ∧
    (ms ≤ 1 → m.dist = none → m ∈ results →
      (⟨m.id, m.text, 1, m.topics, m.entities⟩ : MemorySearchResult)
          ∈ recallFiltered ms results ∧
      (⟨m.id, m.text, 1⟩ : ScoredMem) ∈ hookFiltered (some ms) results) ∧
    (m.dist = none → q ≠ "" →
      forgetExecute (fun _ => [m]) (some q) none = ⟨.deleted m.id, [m.id], [q]⟩) ∧
    (jsTrimStr text ≠ "" → m.dist = none →
      storeExecute uuid ns text cat (m :: rest)
        = .created uuid ⟨uuid, text, [cat.getD "other"], ns⟩) := by
  refine ⟨scoreOfDist_none, max_le zero_le_one (min_le_left 1 x), ?_, ?_, ?_⟩
  · intro hms hdist hmem
    have hmap : (⟨m.id, m.text, 1, m.topics, m.entities⟩ : MemorySearchResult)
        ∈ recallMapped results := by
      rw [recallMapped]
      refine List.mem_map.mpr ⟨m, hmem, ?_⟩
      simp [hdist, scoreOfDist_none]
    constructor
    · rw [recallFiltered]
      refine List.mem_filter.mpr ⟨hmap, ?_⟩
      exact decide_eq_true hms
    · rw [hookFiltered]
      refine List.mem_filter.mpr ⟨?_, ?_⟩
      · refine List.mem_map.mpr ⟨m, hmem, ?_⟩
        simp [hdist, scoreOfDist_none]
      · exact decide_eq_true hms
  · intro hdist hq
    rw [forgetExecute_query _ q hq]
    refine forgetByQuery_single_high _ q m rfl ?_
    rw [hdist, scoreOfDist_none]
    norm_num
  · intro ht hdist
    rw [storeExecute_cons uuid ns text cat m rest ht]
    simp [hdist, distBelowBool]

/-- Witness for `missing_distance_inconsistency`: a concrete
missing-distance hit passes the recall and hook filters with score 1 at the
maximal configurable minimum score 1. -/
theorem missing_distance_inconsistency_witness :
    (⟨"m1", "remembered fact", 1, none, none⟩ : MemorySearchResult)
        ∈ recallFiltered 1 [mNoDist] ∧
    (⟨"m1", "remembered fact", 1⟩ : ScoredMem) ∈ hookFiltered (some 1) [mNoDist] :=
  (missing_distance_inconsistency 1 0 mNoDist [mNoDist] [] "u" "t" none none "q").2.2.1
    (le_refl 1) rfl (List.mem_singleton.mpr rfl)
